import Mathlib

/-!
Verification of the admission-control / node-selection / kill-query core
(`scope.go`) of the chproxy repository.

The Go code is shallowly embedded: every `uint32` counter is a `Nat` reduced
modulo `2^32` exactly where the Go unsigned arithmetic wraps; mutation is
explicit state passing; network I/O in `killQueries` is parametrised by an
oracle giving each node's response.
-/

namespace Chproxy

/-- `2^32`, the modulus of Go's `uint32` arithmetic. -/
def u32 : Nat := 4294967296

/-- `queryCounter` (scope.go lines 183-185): a single `uint32` value. -/
structure QueryCounter where
  value : Nat
deriving DecidableEq

/-- `queryCounter.runningQueries` (scope.go lines 187-189). -/
def QueryCounter.runningQueries (qc : QueryCounter) : Nat :=
  qc.value

/-- `queryCounter.inc` (scope.go lines 191-193): `atomic.AddUint32(&qc.value, 1)`
returns the new value; `uint32` addition wraps modulo `2^32`. -/
def QueryCounter.inc (qc : QueryCounter) : Nat × QueryCounter :=
  let v := (qc.value + 1) % u32
  (v, ⟨v⟩)

/-- `queryCounter.dec` (scope.go lines 195-197): `atomic.AddUint32(&qc.value, ^uint32(0))`,
i.e. adding `2^32 - 1`, which is subtraction by one modulo `2^32`. -/
def QueryCounter.dec (qc : QueryCounter) : QueryCounter :=
  ⟨(qc.value + (u32 - 1)) % u32⟩

/-- `user` (scope.go lines 72-82). `allowedNetworks` is config data unused by
the embedded operations and is kept as an opaque list of strings. -/
structure User where
  toUser : String
  toCluster : String
  allowedNetworks : List String
  name : String
  password : String
  maxExecutionTime : Nat
  maxConcurrentQueries : Nat
  qc : QueryCounter
deriving DecidableEq

/-- `clusterUser` (scope.go lines 84-90). -/
structure ClusterUser where
  name : String
  password : String
  maxExecutionTime : Nat
  maxConcurrentQueries : Nat
  qc : QueryCounter
deriving DecidableEq

/-- `host` (scope.go lines 92-96); the URL is kept as its string form. -/
structure Host where
  addr : String
  qc : QueryCounter
deriving DecidableEq

/-- `cluster` (scope.go lines 98-104). The `users` registry plays no role in
the embedded operations and is kept as an association list. -/
structure Cluster where
  nextIdx : Nat
  hosts : List Host
  users : List (String × ClusterUser)
  killQueryUserName : String
  killQueryUserPassword : String
deriving DecidableEq

/-- `scope` (scope.go lines 24-30); the back-reference to the cluster is kept
but, as in the source, `inc`/`dec` never touch it. -/
structure Scope where
  id : Nat
  host : Host
  cluster : Cluster
  user : User
  clusterUser : ClusterUser
deriving DecidableEq

/-- The limit-exceeded error built by `scope.inc` (scope.go lines 51 and 55),
carrying the entity's name and its configured ceiling exactly as the
`fmt.Errorf` message does. -/
inductive LimitError where
  | userExceeded (name : String) (limit : Nat)
  | clusterUserExceeded (name : String) (limit : Nat)
deriving DecidableEq

/-- `scope.dec` (scope.go lines 66-70): decrement host, user and clusterUser
counters. -/
def Scope.dec (s : Scope) : Scope :=
  { s with host.qc := s.host.qc.dec, user.qc := s.user.qc.dec,
           clusterUser.qc := s.clusterUser.qc.dec }

/-- The state after the three unconditional increments at the top of
`scope.inc` (scope.go lines 45-47). -/
def Scope.incState (s : Scope) : Scope :=
  { s with user.qc := (QueryCounter.inc s.user.qc).2,
           clusterUser.qc := (QueryCounter.inc s.clusterUser.qc).2,
           host.qc := (QueryCounter.inc s.host.qc).2 }

/-- The error computed by `scope.inc` (scope.go lines 49-56): the user check
sets `err`, then the cluster-user check overwrites it. `uq`/`cq` are the
post-increment values returned by `inc`. -/
def Scope.incErr (s : Scope) : Option LimitError :=
  let uq := (QueryCounter.inc s.user.qc).1
  let cq := (QueryCounter.inc s.clusterUser.qc).1
  let e1 : Option LimitError :=
    if 0 < s.user.maxConcurrentQueries ∧ s.user.maxConcurrentQueries < uq then
      some (LimitError.userExceeded s.user.name s.user.maxConcurrentQueries)
    else none
  if 0 < s.clusterUser.maxConcurrentQueries ∧ s.clusterUser.maxConcurrentQueries < cq then
    some (LimitError.clusterUserExceeded s.clusterUser.name s.clusterUser.maxConcurrentQueries)
  else e1

/-- `scope.inc` (scope.go lines 44-64): increment the three counters, compute
the limit error; on error additionally run `scope.dec` and return the error. -/
def Scope.inc (s : Scope) : Option LimitError × Scope :=
  match Scope.incErr s with
  | some e => (some e, (Scope.incState s).dec)
  | none => (none, Scope.incState s)

lemma u32_pos : 0 < u32 := by norm_num [u32]

lemma wrap_inc_dec (v : Nat) (h : v < u32) :
    ((v + 1) % u32 + (u32 - 1)) % u32 = v := by
  simp only [u32] at *
  omega

lemma inc_fst (s : Scope) : (Scope.inc s).1 = Scope.incErr s := by
  unfold Scope.inc
  cases h : Scope.incErr s <;> simp

lemma incErr_isSome_iff (s : Scope) :
    (Scope.incErr s).isSome ↔
      (0 < s.user.maxConcurrentQueries ∧
        s.user.maxConcurrentQueries < (QueryCounter.inc s.user.qc).1) ∨
      (0 < s.clusterUser.maxConcurrentQueries ∧
        s.clusterUser.maxConcurrentQueries < (QueryCounter.inc s.clusterUser.qc).1) := by
  unfold Scope.incErr
  dsimp only
  split_ifs <;> simp_all

/-- C1: `scope.inc` fails exactly when the user's ceiling is positive and its
post-increment count exceeds it, or the cluster user's ceiling is positive and
its post-increment count exceeds it; in particular with both ceilings zero it
never fails. -/
theorem admit_fails_iff_limit_exceeded (s : Scope) :
    ((Scope.inc s).1.isSome ↔
      (0 < s.user.maxConcurrentQueries ∧
        s.user.maxConcurrentQueries < (QueryCounter.inc s.user.qc).1) ∨
      (0 < s.clusterUser.maxConcurrentQueries ∧
        s.clusterUser.maxConcurrentQueries < (QueryCounter.inc s.clusterUser.qc).1)) ∧
    (s.user.maxConcurrentQueries = 0 → s.clusterUser.maxConcurrentQueries = 0 →
      (Scope.inc s).1 = none) := by
  constructor
  · rw [inc_fst]
    exact incErr_isSome_iff s
  · intro hu hc
    rw [inc_fst]
    unfold Scope.incErr
    simp [hu, hc]

/-- A counter at zero. -/
def qc0 : QueryCounter := ⟨0⟩

def userA : User :=
  { toUser := "cu", toCluster := "c", allowedNetworks := [], name := "alice",
    password := "", maxExecutionTime := 0, maxConcurrentQueries := 0, qc := qc0 }

def clusterUserA : ClusterUser :=
  { name := "cu", password := "", maxExecutionTime := 0,
    maxConcurrentQueries := 0, qc := qc0 }

def hostA : Host := ⟨"http://h1", qc0⟩

def clusterA : Cluster :=
  { nextIdx := 0, hosts := [hostA], users := [("cu", clusterUserA)],
    killQueryUserName := "", killQueryUserPassword := "" }

/-- A scope whose user and cluster user both have ceiling 0 (disabled). -/
def scopeZeroCeil : Scope :=
  { id := 1, host := hostA, cluster := clusterA, user := userA, clusterUser := clusterUserA }

/-- A user with ceiling 1 that already has 5 running queries. -/
def userB : User := { userA with name := "bob", maxConcurrentQueries := 1, qc := ⟨5⟩ }

/-- A scope whose admission exceeds the user ceiling. -/
def scopeOver : Scope :=
  { id := 2, host := hostA, cluster := clusterA, user := userB, clusterUser := clusterUserA }

/-- C1 witness: on a concrete scope with both ceilings 0, admission succeeds. -/
theorem admit_fails_iff_limit_exceeded_witness :
    scopeZeroCeil.user.maxConcurrentQueries = 0 ∧
    scopeZeroCeil.clusterUser.maxConcurrentQueries = 0 ∧
    (Scope.inc scopeZeroCeil).1 = none :=
  ⟨rfl, rfl, (admit_fails_iff_limit_exceeded scopeZeroCeil).2 rfl rfl⟩

/-- C2: when `scope.inc` fails, the returned state has all three counters back
at their pre-call values, and the error carries the name and ceiling of an
entity whose ceiling was positive and exceeded. -/
theorem admit_failure_rolls_back_and_names_entity (s : Scope) (e : LimitError)
    (hu : s.user.qc.value < u32) (hc : s.clusterUser.qc.value < u32)
    (hh : s.host.qc.value < u32)
    (hfail : (Scope.inc s).1 = some e) :
    ((Scope.inc s).2.user.qc.value = s.user.qc.value ∧
     (Scope.inc s).2.clusterUser.qc.value = s.clusterUser.qc.value ∧
     (Scope.inc s).2.host.qc.value = s.host.qc.value) ∧
    ((e = LimitError.userExceeded s.user.name s.user.maxConcurrentQueries ∧
        0 < s.user.maxConcurrentQueries ∧
        s.user.maxConcurrentQueries < (QueryCounter.inc s.user.qc).1) ∨
     (e = LimitError.clusterUserExceeded s.clusterUser.name s.clusterUser.maxConcurrentQueries ∧
        0 < s.clusterUser.maxConcurrentQueries ∧
        s.clusterUser.maxConcurrentQueries < (QueryCounter.inc s.clusterUser.qc).1)) := by
  have hIncErr : Scope.incErr s = some e := by rw [← inc_fst]; exact hfail
  have hsnd : (Scope.inc s).2 = (Scope.incState s).dec := by
    unfold Scope.inc
    rw [hIncErr]
  constructor
  · rw [hsnd]
    refine ⟨?_, ?_, ?_⟩ <;>
      simp [Scope.dec, Scope.incState, QueryCounter.dec, QueryCounter.inc,
        wrap_inc_dec _ hu, wrap_inc_dec _ hc, wrap_inc_dec _ hh]
  · unfold Scope.incErr at hIncErr
    dsimp only at hIncErr
    split_ifs at hIncErr with h1 h2
    · right
      exact ⟨(Option.some_inj.mp hIncErr).symm, h1.1, h1.2⟩
    · left
      exact ⟨(Option.some_inj.mp hIncErr).symm, h2.1, h2.2⟩

/-- C2 witness: a concrete failing admission rolls back all three counters and
names the user together with its ceiling 1. -/
theorem admit_failure_rolls_back_witness :
    (Scope.inc scopeOver).1 = some (LimitError.userExceeded "bob" 1) ∧
    (((Scope.inc scopeOver).2.user.qc.value = scopeOver.user.qc.value ∧
      (Scope.inc scopeOver).2.clusterUser.qc.value = scopeOver.clusterUser.qc.value ∧
      (Scope.inc scopeOver).2.host.qc.value = scopeOver.host.qc.value) ∧
     ((LimitError.userExceeded "bob" 1 =
         LimitError.userExceeded scopeOver.user.name scopeOver.user.maxConcurrentQueries ∧
        0 < scopeOver.user.maxConcurrentQueries ∧
        scopeOver.user.maxConcurrentQueries < (QueryCounter.inc scopeOver.user.qc).1) ∨
      (LimitError.userExceeded "bob" 1 =
         LimitError.clusterUserExceeded scopeOver.clusterUser.name
           scopeOver.clusterUser.maxConcurrentQueries ∧
        0 < scopeOver.clusterUser.maxConcurrentQueries ∧
        scopeOver.clusterUser.maxConcurrentQueries <
          (QueryCounter.inc scopeOver.clusterUser.qc).1))) :=
  ⟨by decide,
   admit_failure_rolls_back_and_names_entity scopeOver (LimitError.userExceeded "bob" 1)
     (by decide) (by decide) (by decide) (by decide)⟩

/-- C3: a successful `scope.inc` followed by `scope.dec` restores the user,
cluster-user and host counters to their pre-call values. -/
theorem admit_release_round_trip (s : Scope)
    (hu : s.user.qc.value < u32) (hc : s.clusterUser.qc.value < u32)
    (hh : s.host.qc.value < u32)
    (hok : (Scope.inc s).1 = none) :
    ((Scope.inc s).2.dec).user.qc.value = s.user.qc.value ∧
    ((Scope.inc s).2.dec).clusterUser.qc.value = s.clusterUser.qc.value ∧
    ((Scope.inc s).2.dec).host.qc.value = s.host.qc.value := by
  have hIncErr : Scope.incErr s = none := by rw [← inc_fst]; exact hok
  have hsnd : (Scope.inc s).2 = Scope.incState s := by
    unfold Scope.inc
    rw [hIncErr]
  rw [hsnd]
  refine ⟨?_, ?_, ?_⟩ <;>
    simp [Scope.dec, Scope.incState, QueryCounter.dec, QueryCounter.inc,
      wrap_inc_dec _ hu, wrap_inc_dec _ hc, wrap_inc_dec _ hh]

/-- C3 witness: the round trip on a concrete scope. -/
theorem admit_release_round_trip_witness :
    (Scope.inc scopeZeroCeil).1 = none ∧
    (((Scope.inc scopeZeroCeil).2.dec).user.qc.value = scopeZeroCeil.user.qc.value ∧
     ((Scope.inc scopeZeroCeil).2.dec).clusterUser.qc.value = scopeZeroCeil.clusterUser.qc.value ∧
     ((Scope.inc scopeZeroCeil).2.dec).host.qc.value = scopeZeroCeil.host.qc.value) :=
  ⟨by decide,
   admit_release_round_trip scopeZeroCeil (by decide) (by decide) (by decide) (by decide)⟩

/-- The three unconditional counter increments performed by `scope.inc`. -/
inductive CounterEvent where
  | incUser
  | incClusterUser
  | incHost
deriving DecidableEq

/-- The order in which `scope.inc` (scope.go lines 45-47) performs its three
unconditional increments: `s.user.inc()` on line 45, then `s.clusterUser.inc()`
on line 46, then `s.host.inc()` on line 47. The trace is the same for every
scope because the three statements are straight-line and unconditional. -/
def Scope.incEvents (_ : Scope) : List CounterEvent :=
  [CounterEvent.incUser, CounterEvent.incClusterUser, CounterEvent.incHost]

/-- Position of an increment event in a trace. -/
def eventPos (es : List CounterEvent) (e : CounterEvent) : Nat :=
  es.findIdx (fun x => x == e)

/-- C9 counterexample: on a concrete scope, the host (node) increment is
preceded by both the user increment and the cluster-user increment, refuting
the claim that the node increment is never preceded by either. -/
theorem node_increment_first_counterexample :
    eventPos (Scope.incEvents scopeZeroCeil) CounterEvent.incUser <
      eventPos (Scope.incEvents scopeZeroCeil) CounterEvent.incHost ∧
    eventPos (Scope.incEvents scopeZeroCeil) CounterEvent.incClusterUser <
      eventPos (Scope.incEvents scopeZeroCeil) CounterEvent.incHost := by
  decide

/-- C9 amended: in every execution of `scope.inc` the user counter and the
cluster-user counter are incremented before the node (host) counter; the node
increment comes last, not first. -/
theorem node_increment_last (s : Scope) :
    eventPos (Scope.incEvents s) CounterEvent.incUser <
      eventPos (Scope.incEvents s) CounterEvent.incHost ∧
    eventPos (Scope.incEvents s) CounterEvent.incClusterUser <
      eventPos (Scope.incEvents s) CounterEvent.incHost := by
  have h : Scope.incEvents s =
      [CounterEvent.incUser, CounterEvent.incClusterUser, CounterEvent.incHost] := rfl
  rw [h]
  decide

/-- Default host used by the (never out-of-range) list lookup in the scan. -/
def hostDefault : Host := ⟨"", ⟨0⟩⟩

/-- The load (`runningQueries`) of the host at index `i`. -/
def loadAt (hs : List Host) (i : Nat) : Nat :=
  ((hs.getD i hostDefault).qc).runningQueries

/-- The scan loop of `cluster.getHost` (scope.go lines 169-178): visit the
indices `(idx + o) % l` for the offsets `o = 1, …, l-1` in order; return the
first index with load 0, otherwise track the least-loaded index seen so far
(strict `<` comparison, so earlier indices win ties). -/
def scanHosts (hs : List Host) (l idx : Nat) : List Nat → Nat → Nat → Nat
  | [], idle, _ => idle
  | o :: rest, idle, idleN =>
    let i := (idx + o) % l
    let n := loadAt hs i
    if n = 0 then i
    else if n < idleN then scanHosts hs l idx rest i n
    else scanHosts hs l idx rest idle idleN

/-- The start index of `cluster.getHost` (scope.go lines 156-159): the
post-increment 32-bit cursor, reduced modulo the number of hosts. -/
def Cluster.startIdx (c : Cluster) : Nat :=
  ((c.nextIdx + 1) % u32) % c.hosts.length

/-- `cluster.getHost` (scope.go lines 155-181), returning the index of the
selected host together with the cluster with its advanced cursor. The Go loop
`for i := (idx+1)%l; i != idx; i = (i+1)%l` visits exactly the indices
`(idx+o) % l` for `o = 1, …, l-1`. -/
def Cluster.getHostIdx (c : Cluster) : Nat × Cluster :=
  let nIdx := (c.nextIdx + 1) % u32
  let l := c.hosts.length
  let idx := nIdx % l
  let idleN := loadAt c.hosts idx
  let c1 : Cluster := { c with nextIdx := nIdx }
  if idleN = 0 then (idx, c1)
  else (scanHosts c.hosts l idx (List.range' 1 (l - 1)) idx idleN, c1)

lemma getHostIdx_fst_zero (c : Cluster) (h0 : loadAt c.hosts c.startIdx = 0) :
    (c.getHostIdx).1 = c.startIdx := by
  unfold Cluster.getHostIdx Cluster.startIdx at *
  dsimp only
  rw [if_pos h0]

lemma getHostIdx_fst_scan (c : Cluster) (h0 : loadAt c.hosts c.startIdx ≠ 0) :
    (c.getHostIdx).1 =
      scanHosts c.hosts c.hosts.length c.startIdx
        (List.range' 1 (c.hosts.length - 1)) c.startIdx (loadAt c.hosts c.startIdx) := by
  unfold Cluster.getHostIdx Cluster.startIdx at *
  dsimp only
  rw [if_neg h0]

lemma getHostIdx_snd (c : Cluster) :
    (c.getHostIdx).2 = { c with nextIdx := (c.nextIdx + 1) % u32 } := by
  unfold Cluster.getHostIdx
  dsimp only
  split_ifs <;> rfl

/-- Every index distinct from the start index is reached by exactly one scan
offset `o ∈ [1, l-1]`. -/
lemma cover_offset (l idx j : Nat) (hidx : idx < l) (hj : j < l) (hne : j ≠ idx) :
    ∃ o, 1 ≤ o ∧ o < l ∧ (idx + o) % l = j := by
  rcases Nat.lt_or_ge j idx with h | h
  · refine ⟨j + l - idx, by omega, by omega, ?_⟩
    rw [show idx + (j + l - idx) = j + l by omega, Nat.add_mod_right]
    exact Nat.mod_eq_of_lt hj
  · refine ⟨j - idx, by omega, by omega, ?_⟩
    rw [show idx + (j - idx) = j by omega]
    exact Nat.mod_eq_of_lt hj

/-- If some scanned offset points at a zero-load host, the scan returns an
in-range index whose load is zero. -/
lemma scanHosts_zero (hs : List Host) (l idx : Nat) (offs : List Nat)
    (idle idleN : Nat) (hl : 0 < l)
    (hex : ∃ o ∈ offs, loadAt hs ((idx + o) % l) = 0) :
    scanHosts hs l idx offs idle idleN < l ∧
    loadAt hs (scanHosts hs l idx offs idle idleN) = 0 := by
  induction offs generalizing idle idleN with
  | nil => simp at hex
  | cons o rest ih =>
    rw [show scanHosts hs l idx (o :: rest) idle idleN =
        (if loadAt hs ((idx + o) % l) = 0 then (idx + o) % l
         else if loadAt hs ((idx + o) % l) < idleN then
           scanHosts hs l idx rest ((idx + o) % l) (loadAt hs ((idx + o) % l))
         else scanHosts hs l idx rest idle idleN) from rfl]
    by_cases h0 : loadAt hs ((idx + o) % l) = 0
    · rw [if_pos h0]
      exact ⟨Nat.mod_lt _ hl, h0⟩
    · rw [if_neg h0]
      have hex' : ∃ o' ∈ rest, loadAt hs ((idx + o') % l) = 0 := by
        rcases hex with ⟨o', ho', hz⟩
        rcases List.mem_cons.mp ho' with rfl | hmem
        · exact absurd hz h0
        · exact ⟨o', hmem, hz⟩
      by_cases hlt : loadAt hs ((idx + o) % l) < idleN
      · rw [if_pos hlt]
        exact ih _ _ hex'
      · rw [if_neg hlt]
        exact ih _ _ hex'

/-- Invariant of the least-loaded scan when no host has load zero: the result
is in range, no worse than the incoming best, no worse than anything scanned,
and it is either the incoming best or a strictly better scanned index that is
strictly better than every earlier scanned offset. -/
lemma scanHosts_spec (hs : List Host) (l idx : Nat) (offs : List Nat)
    (idle idleN : Nat) (hl : 0 < l) (hidle : idle < l)
    (hN : idleN = loadAt hs idle)
    (hnz : ∀ j, j < l → loadAt hs j ≠ 0)
    (hsorted : offs.Pairwise (· < ·)) :
    scanHosts hs l idx offs idle idleN < l ∧
    loadAt hs (scanHosts hs l idx offs idle idleN) ≤ idleN ∧
    (∀ o ∈ offs, loadAt hs (scanHosts hs l idx offs idle idleN) ≤
      loadAt hs ((idx + o) % l)) ∧
    (scanHosts hs l idx offs idle idleN = idle ∨
      ∃ o ∈ offs, scanHosts hs l idx offs idle idleN = (idx + o) % l ∧
        loadAt hs (scanHosts hs l idx offs idle idleN) < idleN ∧
        ∀ o' ∈ offs, o' < o →
          loadAt hs (scanHosts hs l idx offs idle idleN) <
            loadAt hs ((idx + o') % l)) := by
  induction offs generalizing idle idleN with
  | nil =>
    refine ⟨hidle, by simp [scanHosts, hN], by simp [scanHosts], Or.inl rfl⟩
  | cons o rest ih =>
    have hi : (idx + o) % l < l := Nat.mod_lt _ hl
    have h0 : loadAt hs ((idx + o) % l) ≠ 0 := hnz _ hi
    rcases List.pairwise_cons.mp hsorted with ⟨ho, hrest⟩
    rw [show scanHosts hs l idx (o :: rest) idle idleN =
        (if loadAt hs ((idx + o) % l) = 0 then (idx + o) % l
         else if loadAt hs ((idx + o) % l) < idleN then
           scanHosts hs l idx rest ((idx + o) % l) (loadAt hs ((idx + o) % l))
         else scanHosts hs l idx rest idle idleN) from rfl]
    rw [if_neg h0]
    by_cases hlt : loadAt hs ((idx + o) % l) < idleN
    · rw [if_pos hlt]
      obtain ⟨ihlt, ihle, ihall, ihdisj⟩ := ih ((idx + o) % l) _ hi rfl hrest
      refine ⟨ihlt, le_of_lt (lt_of_le_of_lt ihle hlt), ?_, ?_⟩
      · intro o'' hmem
        rcases List.mem_cons.mp hmem with rfl | hmem'
        · exact ihle
        · exact ihall o'' hmem'
      · right
        rcases ihdisj with heq | ⟨o'', hmem'', req, rlt, rall⟩
        · refine ⟨o, List.mem_cons_self o rest, heq, ?_, ?_⟩
          · rw [heq]
            exact hlt
          · intro o' hmem' hlt'
            rcases List.mem_cons.mp hmem' with rfl | hmem'
            · exact absurd hlt' (lt_irrefl o')
            · exact absurd hlt' (not_lt_of_gt (ho o' hmem'))
        · refine ⟨o'', List.mem_cons_of_mem o hmem'', req, lt_trans rlt hlt, ?_⟩
          intro o' hmem' hlt'
          rcases List.mem_cons.mp hmem' with rfl | hmem'
          · exact rlt
          · exact rall o' hmem' hlt'
    · rw [if_neg hlt]
      obtain ⟨ihlt, ihle, ihall, ihdisj⟩ := ih idle idleN hidle hN hrest
      refine ⟨ihlt, ihle, ?_, ?_⟩
      · intro o'' hmem
        rcases List.mem_cons.mp hmem with rfl | hmem'
        · exact le_trans ihle (le_of_not_lt hlt)
        · exact ihall o'' hmem'
      · rcases ihdisj with heq | ⟨o'', hmem'', req, rlt, rall⟩
        · exact Or.inl heq
        · right
          refine ⟨o'', List.mem_cons_of_mem o hmem'', req, rlt, ?_⟩
          intro o' hmem' hlt'
          rcases List.mem_cons.mp hmem' with rfl | hmem'
          · exact lt_of_lt_of_le rlt (le_of_not_lt hlt)
          · exact rall o' hmem' hlt'

lemma startIdx_lt (c : Cluster) (hne : 0 < c.hosts.length) :
    c.startIdx < c.hosts.length :=
  Nat.mod_lt _ hne

/-- C4: whenever some host of a non-empty cluster has load 0, `getHost`
returns an in-range index whose host has load 0, for every cursor value. -/
theorem selectNode_returns_zero_load_node (c : Cluster)
    (hne : 0 < c.hosts.length) (j : Nat) (hj : j < c.hosts.length)
    (hz : loadAt c.hosts j = 0) :
    (c.getHostIdx).1 < c.hosts.length ∧ loadAt c.hosts (c.getHostIdx).1 = 0 := by
  by_cases h0 : loadAt c.hosts c.startIdx = 0
  · rw [getHostIdx_fst_zero c h0]
    exact ⟨startIdx_lt c hne, h0⟩
  · rw [getHostIdx_fst_scan c h0]
    have hne' : j ≠ c.startIdx := by
      intro h
      exact h0 (h ▸ hz)
    obtain ⟨o, ho1, hol, hoeq⟩ :=
      cover_offset c.hosts.length c.startIdx j (startIdx_lt c hne) hj hne'
    refine scanHosts_zero c.hosts c.hosts.length c.startIdx _ _ _ hne ⟨o, ?_, ?_⟩
    · rw [List.mem_range'_1]
      omega
    · rw [hoeq]
      exact hz

/-- C4 witness: a concrete 3-host cluster with loads `[7, 0, 5]`. -/
def clusterZeroAt1 : Cluster :=
  { nextIdx := 0,
    hosts := [⟨"http://n1", ⟨7⟩⟩, ⟨"http://n2", ⟨0⟩⟩, ⟨"http://n3", ⟨5⟩⟩],
    users := [], killQueryUserName := "", killQueryUserPassword := "" }

theorem selectNode_returns_zero_load_node_witness :
    (0 < clusterZeroAt1.hosts.length ∧ 1 < clusterZeroAt1.hosts.length ∧
      loadAt clusterZeroAt1.hosts 1 = 0) ∧
    ((clusterZeroAt1.getHostIdx).1 < clusterZeroAt1.hosts.length ∧
      loadAt clusterZeroAt1.hosts (clusterZeroAt1.getHostIdx).1 = 0) :=
  ⟨by decide,
   selectNode_returns_zero_load_node clusterZeroAt1 (by decide) 1 (by decide) (by decide)⟩

/-- C5: when no host has load 0, `getHost` returns an index of minimum load
over all hosts; ties are broken in favour of the earliest index in scan order
(start first, then increasing offset with wraparound), and if no scanned index
is strictly better than the start index, the start index itself is returned. -/
theorem selectNode_min_load_earliest_tie (c : Cluster)
    (hne : 0 < c.hosts.length)
    (hnz : ∀ j, j < c.hosts.length → loadAt c.hosts j ≠ 0) :
    (∀ j, j < c.hosts.length →
      loadAt c.hosts (c.getHostIdx).1 ≤ loadAt c.hosts j) ∧
    (∃ k, k < c.hosts.length ∧
      (c.getHostIdx).1 = (c.startIdx + k) % c.hosts.length ∧
      ∀ k', k' < k → loadAt c.hosts (c.getHostIdx).1 <
        loadAt c.hosts ((c.startIdx + k') % c.hosts.length)) ∧
    ((∀ j, j < c.hosts.length → loadAt c.hosts c.startIdx ≤ loadAt c.hosts j) →
      (c.getHostIdx).1 = c.startIdx) := by
  have hidx := startIdx_lt c hne
  have h0 : loadAt c.hosts c.startIdx ≠ 0 := hnz _ hidx
  have hfst := getHostIdx_fst_scan c h0
  obtain ⟨hslt, hsle, hsall, hsdisj⟩ :=
    scanHosts_spec c.hosts c.hosts.length c.startIdx
      (List.range' 1 (c.hosts.length - 1)) c.startIdx (loadAt c.hosts c.startIdx)
      hne hidx rfl hnz (List.pairwise_lt_range' 1 (c.hosts.length - 1))
  rw [← hfst] at hslt hsle hsall hsdisj
  have hmin : ∀ j, j < c.hosts.length →
      loadAt c.hosts (c.getHostIdx).1 ≤ loadAt c.hosts j := by
    intro j hj
    by_cases hje : j = c.startIdx
    · rw [hje]
      exact hsle
    · obtain ⟨o, ho1, hol, hoeq⟩ :=
        cover_offset c.hosts.length c.startIdx j hidx hj hje
      have : o ∈ List.range' 1 (c.hosts.length - 1) := by
        rw [List.mem_range'_1]
        omega
      rw [← hoeq]
      exact hsall o this
  have hstart0 : (c.startIdx + 0) % c.hosts.length = c.startIdx := by
    rw [Nat.add_zero]
    exact Nat.mod_eq_of_lt hidx
  have htie : ∃ k, k < c.hosts.length ∧
      (c.getHostIdx).1 = (c.startIdx + k) % c.hosts.length ∧
      ∀ k', k' < k → loadAt c.hosts (c.getHostIdx).1 <
        loadAt c.hosts ((c.startIdx + k') % c.hosts.length) := by
    rcases hsdisj with heq | ⟨o, hmem, req, rlt, rall⟩
    · refine ⟨0, hne, ?_, ?_⟩
      · rw [hstart0]
        exact heq
      · intro k' hk'
        omega
    · have hor := List.mem_range'_1.mp hmem
      refine ⟨o, by omega, req, ?_⟩
      intro k' hk'
      rcases Nat.eq_zero_or_pos k' with rfl | hk'pos
      · rw [hstart0]
        exact rlt
      · refine rall k' ?_ hk'
        rw [List.mem_range'_1]
        omega
  refine ⟨hmin, htie, ?_⟩
  intro hstartmin
  obtain ⟨k, hk, hkeq, hkall⟩ := htie
  rcases Nat.eq_zero_or_pos k with rfl | hkpos
  · rw [hkeq]
    exact hstart0
  · have h1 := hkall 0 hkpos
    rw [hstart0] at h1
    have h2 := hstartmin _ hslt
    omega

/-- C5 witness: a concrete 3-host cluster with loads `[2, 1, 1]` and cursor 0,
so the scan starts at index 1, which ties with index 2 and wins. -/
def clusterBusy : Cluster :=
  { nextIdx := 0,
    hosts := [⟨"http://n1", ⟨2⟩⟩, ⟨"http://n2", ⟨1⟩⟩, ⟨"http://n3", ⟨1⟩⟩],
    users := [], killQueryUserName := "", killQueryUserPassword := "" }

theorem selectNode_min_load_earliest_tie_witness :
    (0 < clusterBusy.hosts.length ∧
      (∀ j, j < clusterBusy.hosts.length → loadAt clusterBusy.hosts j ≠ 0)) ∧
    ((∀ j, j < clusterBusy.hosts.length →
        loadAt clusterBusy.hosts (clusterBusy.getHostIdx).1 ≤ loadAt clusterBusy.hosts j) ∧
     (∃ k, k < clusterBusy.hosts.length ∧
        (clusterBusy.getHostIdx).1 = (clusterBusy.startIdx + k) % clusterBusy.hosts.length ∧
        ∀ k', k' < k → loadAt clusterBusy.hosts (clusterBusy.getHostIdx).1 <
          loadAt clusterBusy.hosts ((clusterBusy.startIdx + k') % clusterBusy.hosts.length)) ∧
     ((∀ j, j < clusterBusy.hosts.length →
         loadAt clusterBusy.hosts clusterBusy.startIdx ≤ loadAt clusterBusy.hosts j) →
       (clusterBusy.getHostIdx).1 = clusterBusy.startIdx)) :=
  ⟨⟨by decide, by decide⟩,
   selectNode_min_load_earliest_tie clusterBusy (by decide) (by decide)⟩

/-- The indices returned by `n` successive sequential calls of
`cluster.getHost`, threading the advanced cursor, with no load changes in
between. -/
def Cluster.getHostSeq (c : Cluster) : Nat → List Nat
  | 0 => []
  | Nat.succ n => (c.getHostIdx).1 :: ((c.getHostIdx).2.getHostSeq n)

/-- A 3-host idle cluster whose 32-bit cursor is about to wrap around. -/
def clusterWrap : Cluster :=
  { nextIdx := 4294967294,
    hosts := [⟨"http://n1", ⟨0⟩⟩, ⟨"http://n2", ⟨0⟩⟩, ⟨"http://n3", ⟨0⟩⟩],
    users := [], killQueryUserName := "", killQueryUserPassword := "" }

/-- C6 counterexample: on a 3-host cluster with every load 0 and cursor
`2^32 - 2`, three successive calls return the indices `[0, 0, 1]` — the first
two calls pick the same node, because `2^32 mod 3 ≠ 0`, so the cursor
wraparound repeats a residue. The claim fails for this cursor value. -/
theorem round_robin_distinct_counterexample :
    clusterWrap.hosts.length = 3 ∧
    (∀ h ∈ clusterWrap.hosts, h.qc.runningQueries = 0) ∧
    clusterWrap.getHostSeq 3 = [0, 0, 1] ∧
    ¬ (clusterWrap.getHostSeq 3).Nodup := by
  decide

lemma loadAt_zero_of_all_zero (hs : List Host)
    (hz : ∀ h ∈ hs, h.qc.runningQueries = 0) (i : Nat) (hi : i < hs.length) :
    loadAt hs i = 0 := by
  unfold loadAt
  rw [List.getD_eq_getElem hs hostDefault hi]
  exact hz _ (List.getElem_mem hi)

/-- On an all-idle cluster whose cursor does not wrap during the calls, the
`n` successive selections are the consecutive cursor residues. -/
lemma getHostSeq_all_zero (n : Nat) (c : Cluster)
    (hl : 0 < c.hosts.length)
    (hz : ∀ h ∈ c.hosts, h.qc.runningQueries = 0)
    (hwrap : c.nextIdx + n < u32) :
    c.getHostSeq n =
      (List.range n).map (fun k => (c.nextIdx + 1 + k) % c.hosts.length) := by
  induction n generalizing c with
  | zero => rfl
  | succ n ih =>
    have hstep : (c.nextIdx + 1) % u32 = c.nextIdx + 1 :=
      Nat.mod_eq_of_lt (by omega)
    have hidx : c.startIdx < c.hosts.length := startIdx_lt c hl
    have h0 : loadAt c.hosts c.startIdx = 0 :=
      loadAt_zero_of_all_zero c.hosts hz _ hidx
    have hfst : (c.getHostIdx).1 = (c.nextIdx + 1) % c.hosts.length := by
      rw [getHostIdx_fst_zero c h0]
      unfold Cluster.startIdx
      rw [hstep]
    have hsnd : (c.getHostIdx).2 = { c with nextIdx := c.nextIdx + 1 } := by
      rw [getHostIdx_snd c, hstep]
    rw [show c.getHostSeq (n + 1) =
        (c.getHostIdx).1 :: ((c.getHostIdx).2.getHostSeq n) from rfl]
    rw [hfst, hsnd, ih { c with nextIdx := c.nextIdx + 1 } hl hz (by dsimp only; omega)]
    rw [List.range_succ_eq_map, List.map_cons, List.map_map]
    dsimp only
    rw [Nat.add_zero]
    congr 1
    refine List.map_congr_left (fun k _ => ?_)
    simp only [Function.comp_apply]
    congr 1
    omega

/-- C6 amended: on a cluster of `N` idle nodes, `N` successive sequential
calls to `getHost` return `N` pairwise-distinct indices, provided the 32-bit
cursor does not wrap around during those `N` increments
(`nextIdx + N < 2^32`); the unrestricted claim fails at the wraparound
boundary whenever `N` does not divide `2^32`. -/
theorem round_robin_distinct_no_wraparound (c : Cluster)
    (hl : 0 < c.hosts.length)
    (hz : ∀ h ∈ c.hosts, h.qc.runningQueries = 0)
    (hwrap : c.nextIdx + c.hosts.length < u32) :
    (c.getHostSeq c.hosts.length).Nodup := by
  rw [getHostSeq_all_zero c.hosts.length c hl hz hwrap]
  refine List.Nodup.map_on ?_ (List.nodup_range c.hosts.length)
  intro k1 h1 k2 h2 heq
  rw [List.mem_range] at h1 h2
  have hmodeq : k1 ≡ k2 [MOD c.hosts.length] :=
    Nat.ModEq.add_left_cancel' (c.nextIdx + 1) heq
  unfold Nat.ModEq at hmodeq
  rw [Nat.mod_eq_of_lt h1, Nat.mod_eq_of_lt h2] at hmodeq
  exact hmodeq

/-- An idle 3-host cluster with a small cursor (no wraparound in 3 calls). -/
def clusterIdle : Cluster :=
  { nextIdx := 10,
    hosts := [⟨"http://n1", ⟨0⟩⟩, ⟨"http://n2", ⟨0⟩⟩, ⟨"http://n3", ⟨0⟩⟩],
    users := [], killQueryUserName := "", killQueryUserPassword := "" }

/-- C6 amended witness: three calls on a concrete idle 3-host cluster away
from the wraparound boundary visit three distinct nodes. -/
theorem round_robin_distinct_no_wraparound_witness :
    (0 < clusterIdle.hosts.length ∧
      (∀ h ∈ clusterIdle.hosts, h.qc.runningQueries = 0) ∧
      clusterIdle.nextIdx + clusterIdle.hosts.length < u32) ∧
    (clusterIdle.getHostSeq clusterIdle.hosts.length).Nodup :=
  ⟨⟨by decide, by decide, by decide⟩,
   round_robin_distinct_no_wraparound clusterIdle (by decide) (by decide) (by decide)⟩

/-- What a node does with the kill request addressed to it: the request may
fail to be constructed (`http.NewRequest` error), fail in transport
(`client.Do` error), or come back with a status code and body. -/
inductive ReqOutcome where
  | buildErr (msg : String)
  | sendErr (msg : String)
  | response (statusCode : Nat) (body : String)
deriving DecidableEq

/-- A request outcome is successful when it is a response with status 200
(`http.StatusOK`, scope.go line 142). -/
def ReqOutcome.isOk : ReqOutcome → Bool
  | .response code _ => code == 200
  | _ => false

/-- The three error shapes of `cluster.killQueries` (scope.go lines 133, 139
and 145), carrying the fields interpolated into the `fmt.Errorf` messages. -/
inductive KillError where
  | createErr (addr : String) (msg : String)
  | execErr (query : String) (addr : String) (msg : String)
  | statusErr (query : String) (addr : String) (code : Nat) (body : String)
deriving DecidableEq

/-- An HTTP request handed to `client.Do`: target address, POST body, and the
basic-auth credential set by `setAuth` (scope.go lines 128-137). -/
structure SentRequest where
  addr : String
  body : String
  authUser : String
  authPassword : String
deriving DecidableEq

/-- The error `cluster.killQueries` reports for a node with the given address
and outcome (scope.go lines 132-147). -/
def failErr (query addr : String) : ReqOutcome → KillError
  | .buildErr m => KillError.createErr addr m
  | .sendErr m => KillError.execErr query addr m
  | .response code body => KillError.statusErr query addr code body

/-- The single quote character, `'`. -/
def singleQuote : Char := Char.ofNat 39

/-- The administrative statement built by `cluster.killQueries`
(scope.go line 124):
`fmt.Sprintf("KILL QUERY WHERE http_user_agent = '%s' AND elapsed >= %d", ua, int(elapsed))`.
The `float64` parameter appears only through its integer truncation
`int(elapsed)`, which is what `elapsedTrunc` stands for; `%s` splices `ua` in
verbatim, with no escaping. -/
def killQuery (ua : String) (elapsedTrunc : Int) : String :=
  "KILL QUERY WHERE http_user_agent = '" ++ ua ++ "' AND elapsed >= " ++
    toString elapsedTrunc

/-- The per-host loop of `cluster.killQueries` (scope.go lines 127-149):
visit hosts in cluster order, send the query to each, stop at the first
build error, transport error or non-200 status. Returns the list of host
positions reached by the loop, the requests actually handed to `client.Do`,
and the error that aborted the loop (if any). -/
def killLoop (query userN userP : String) (outcomes : Nat → ReqOutcome)
    (hs : List Host) (pos : Nat) : List Nat × List SentRequest × Option KillError :=
  match hs with
  | [] => ([], [], none)
  | h :: rest =>
    match outcomes pos with
    | ReqOutcome.buildErr m => ([pos], [], some (KillError.createErr h.addr m))
    | ReqOutcome.sendErr m =>
      ([pos], [⟨h.addr, query, userN, userP⟩], some (KillError.execErr query h.addr m))
    | ReqOutcome.response code body =>
      if code ≠ 200 then
        ([pos], [⟨h.addr, query, userN, userP⟩],
          some (KillError.statusErr query h.addr code body))
      else
        let r := killLoop query userN userP outcomes rest (pos + 1)
        (pos :: r.1, ⟨h.addr, query, userN, userP⟩ :: r.2.1, r.2.2)

/-- `cluster.killQueries` (scope.go lines 119-152), with the network
parametrised by an oracle `outcomes` giving each host position's behaviour:
a no-op when no administrative credential is configured, otherwise the
sequential loop over the hosts. -/
def Cluster.killQueries (c : Cluster) (outcomes : Nat → ReqOutcome)
    (ua : String) (elapsedTrunc : Int) :
    List Nat × List SentRequest × Option KillError :=
  if c.killQueryUserName = "" then ([], [], none)
  else
    killLoop (killQuery ua elapsedTrunc) c.killQueryUserName
      c.killQueryUserPassword outcomes c.hosts 0

/-- C8: with no administrative credential configured, `killQueries` succeeds
without reaching any node or sending any request. -/
theorem killQueries_no_credential_noop (c : Cluster) (outcomes : Nat → ReqOutcome)
    (ua : String) (e : Int) (hcred : c.killQueryUserName = "") :
    c.killQueries outcomes ua e = ([], [], none) := by
  unfold Cluster.killQueries
  rw [if_pos hcred]

/-- An all-success network oracle. -/
def outcomesOk : Nat → ReqOutcome := fun _ => ReqOutcome.response 200 ""

/-- C8 witness: a concrete cluster with an empty kill credential. -/
theorem killQueries_no_credential_noop_witness :
    clusterIdle.killQueryUserName = "" ∧
    clusterIdle.killQueries outcomesOk "tag" 5 = ([], [], none) :=
  ⟨rfl, killQueries_no_credential_noop clusterIdle outcomesOk "tag" 5 rfl⟩

lemma isOk_true_iff (o : ReqOutcome) :
    o.isOk = true ↔ ∃ b, o = ReqOutcome.response 200 b := by
  cases o <;> simp [ReqOutcome.isOk]

lemma killLoop_first_fail (query userN userP : String) (outcomes : Nat → ReqOutcome)
    (i : Nat) :
    ∀ (hs : List Host) (pos : Nat), i < hs.length →
    (∀ j, j < i → (outcomes (pos + j)).isOk = true) →
    (outcomes (pos + i)).isOk = false →
    (killLoop query userN userP outcomes hs pos).1 = List.range' pos (i + 1) ∧
    (killLoop query userN userP outcomes hs pos).2.2 =
      some (failErr query ((hs.getD i hostDefault).addr) (outcomes (pos + i))) := by
  induction i with
  | zero =>
    intro hs pos hlen hok hfail
    match hs with
    | h :: rest =>
      rw [Nat.add_zero] at hfail
      rw [show killLoop query userN userP outcomes (h :: rest) pos =
          (match outcomes pos with
           | ReqOutcome.buildErr m => ([pos], [], some (KillError.createErr h.addr m))
           | ReqOutcome.sendErr m =>
             ([pos], [⟨h.addr, query, userN, userP⟩],
               some (KillError.execErr query h.addr m))
           | ReqOutcome.response code body =>
             if code ≠ 200 then
               ([pos], [⟨h.addr, query, userN, userP⟩],
                 some (KillError.statusErr query h.addr code body))
             else
               let r := killLoop query userN userP outcomes rest (pos + 1)
               (pos :: r.1, ⟨h.addr, query, userN, userP⟩ :: r.2.1, r.2.2)) from rfl]
      rw [Nat.add_zero]
      cases houtcome : outcomes pos with
      | buildErr m => simp [failErr, houtcome, List.range']
      | sendErr m => simp [failErr, houtcome, List.range']
      | response code body =>
        have hne : code ≠ 200 := by
          intro h200
          rw [houtcome, h200] at hfail
          simp [ReqOutcome.isOk] at hfail
        simp [failErr, houtcome, hne, List.range']
  | succ i ih =>
    intro hs pos hlen hok hfail
    match hs with
    | h :: rest =>
      have h0 : (outcomes pos).isOk = true := by
        have := hok 0 (Nat.succ_pos i)
        rwa [Nat.add_zero] at this
      obtain ⟨b, hb⟩ := (isOk_true_iff (outcomes pos)).mp h0
      rw [show killLoop query userN userP outcomes (h :: rest) pos =
          (match outcomes pos with
           | ReqOutcome.buildErr m => ([pos], [], some (KillError.createErr h.addr m))
           | ReqOutcome.sendErr m =>
             ([pos], [⟨h.addr, query, userN, userP⟩],
               some (KillError.execErr query h.addr m))
           | ReqOutcome.response code body =>
             if code ≠ 200 then
               ([pos], [⟨h.addr, query, userN, userP⟩],
                 some (KillError.statusErr query h.addr code body))
             else
               let r := killLoop query userN userP outcomes rest (pos + 1)
               (pos :: r.1, ⟨h.addr, query, userN, userP⟩ :: r.2.1, r.2.2)) from rfl]
      rw [hb]
      simp only [ne_eq, not_true_eq_false, if_false, reduceIte]
      have hok' : ∀ j, j < i → (outcomes (pos + 1 + j)).isOk = true := by
        intro j hj
        have := hok (j + 1) (by omega)
        rwa [show pos + (j + 1) = pos + 1 + j by omega] at this
      have hfail' : (outcomes (pos + 1 + i)).isOk = false := by
        rwa [show pos + 1 + i = pos + (i + 1) by omega]
      obtain ⟨ih1, ih2⟩ := ih rest (pos + 1) (by simpa using hlen) hok' hfail'
      refine ⟨?_, ?_⟩
      · rw [List.range'_succ, ← ih1]
      · rw [show pos + (i + 1) = pos + 1 + i by omega]
        simpa [List.getD_cons_succ] using ih2

/-- C7: with an administrative credential configured, if the nodes before
position `i` succeed and node `i` fails (request construction, transport, or
non-success status), `killQueries` aborts with exactly node `i`'s error, and
the only nodes reached by the loop are `0, …, i` in order — nothing after the
failing node is attempted. -/
theorem killQueries_aborts_on_first_failure (c : Cluster)
    (outcomes : Nat → ReqOutcome) (ua : String) (e : Int)
    (hcred : c.killQueryUserName ≠ "")
    (i : Nat) (hi : i < c.hosts.length)
    (hok : ∀ j, j < i → (outcomes j).isOk = true)
    (hfail : (outcomes i).isOk = false) :
    (c.killQueries outcomes ua e).2.2 =
      some (failErr (killQuery ua e) ((c.hosts.getD i hostDefault).addr) (outcomes i)) ∧
    (c.killQueries outcomes ua e).1 = List.range (i + 1) ∧
    ∀ j ∈ (c.killQueries outcomes ua e).1, j ≤ i := by
  have hunfold : c.killQueries outcomes ua e =
      killLoop (killQuery ua e) c.killQueryUserName c.killQueryUserPassword
        outcomes c.hosts 0 := by
    unfold Cluster.killQueries
    rw [if_neg hcred]
  obtain ⟨h1, h2⟩ :=
    killLoop_first_fail (killQuery ua e) c.killQueryUserName c.killQueryUserPassword
      outcomes i c.hosts 0 hi (by simpa using hok) (by simpa using hfail)
  rw [hunfold]
  refine ⟨by simpa using h2, ?_, ?_⟩
  · rw [h1, List.range_eq_range']
  · intro j hj
    rw [h1] at hj
    rw [List.mem_range'_1] at hj
    omega

/-- A 3-host cluster with an administrative kill credential. -/
def clusterKill : Cluster :=
  { nextIdx := 0,
    hosts := [⟨"http://n1", ⟨0⟩⟩, ⟨"http://n2", ⟨0⟩⟩, ⟨"http://n3", ⟨0⟩⟩],
    users := [], killQueryUserName := "admin", killQueryUserPassword := "pw" }

/-- A network oracle where node 1 answers with status 500 and every other
node succeeds. -/
def outcomesFailAt1 : Nat → ReqOutcome :=
  fun n => if n = 1 then ReqOutcome.response 500 "err" else ReqOutcome.response 200 ""

/-- C7 witness: on a concrete 3-node cluster where node 1 returns a non-200
status, `killQueries` surfaces node 1's error and never reaches node 2. -/
theorem killQueries_aborts_on_first_failure_witness :
    (clusterKill.killQueryUserName ≠ "" ∧ 1 < clusterKill.hosts.length ∧
      (∀ j, j < 1 → (outcomesFailAt1 j).isOk = true) ∧
      (outcomesFailAt1 1).isOk = false) ∧
    ((clusterKill.killQueries outcomesFailAt1 "tag" 30).2.2 =
       some (failErr (killQuery "tag" 30) ((clusterKill.hosts.getD 1 hostDefault).addr)
         (outcomesFailAt1 1)) ∧
     (clusterKill.killQueries outcomesFailAt1 "tag" 30).1 = List.range 2 ∧
     ∀ j ∈ (clusterKill.killQueries outcomesFailAt1 "tag" 30).1, j ≤ 1) :=
  ⟨⟨by decide, by decide, by decide, by decide⟩,
   killQueries_aborts_on_first_failure clusterKill outcomesFailAt1 "tag" 30
     (by decide) 1 (by decide) (by decide) (by decide)⟩

/-- Every request `killLoop` hands to `client.Do` carries the query as its
body: the statement body is built once, before the loop. -/
lemma killLoop_bodies (query userN userP : String) (outcomes : Nat → ReqOutcome) :
    ∀ (hs : List Host) (pos : Nat),
    ∀ r ∈ (killLoop query userN userP outcomes hs pos).2.1, r.body = query := by
  intro hs
  induction hs with
  | nil =>
    intro pos r hr
    simp [killLoop] at hr
  | cons h rest ih =>
    intro pos r hr
    rw [show killLoop query userN userP outcomes (h :: rest) pos =
        (match outcomes pos with
         | ReqOutcome.buildErr m => ([pos], [], some (KillError.createErr h.addr m))
         | ReqOutcome.sendErr m =>
           ([pos], [⟨h.addr, query, userN, userP⟩],
             some (KillError.execErr query h.addr m))
         | ReqOutcome.response code body =>
           if code ≠ 200 then
             ([pos], [⟨h.addr, query, userN, userP⟩],
               some (KillError.statusErr query h.addr code body))
           else
             let r := killLoop query userN userP outcomes rest (pos + 1)
             (pos :: r.1, ⟨h.addr, query, userN, userP⟩ :: r.2.1, r.2.2)) from rfl] at hr
    cases houtcome : outcomes pos with
    | buildErr m =>
      rw [houtcome] at hr
      simp at hr
    | sendErr m =>
      rw [houtcome] at hr
      simp at hr
      rw [hr]
    | response code body =>
      rw [houtcome] at hr
      by_cases hne : code = 200
      · subst hne
        simp at hr
        rcases hr with heq | hmem
        · rw [heq]
        · exact ih (pos + 1) r hmem
      · simp [hne] at hr
        rw [hr]

/-- C10: the statement sent by `killQueries` is exactly
`KILL QUERY WHERE http_user_agent = '` ++ tag ++ `' AND elapsed >= ` followed
by the decimal rendering of the truncated elapsed value; the identical body
goes to every node of the call; and the tag is spliced in verbatim and
unescaped, so the number of single quotes in the statement is 2 plus however
many the tag (and the rendered number) contain — a tag containing a single
quote changes the statement's quote structure. -/
theorem kill_statement_verbatim_tag (c : Cluster) (outcomes : Nat → ReqOutcome)
    (ua : String) (e : Int) :
    (∀ r ∈ (c.killQueries outcomes ua e).2.1,
      r.body = "KILL QUERY WHERE http_user_agent = '" ++ ua ++
        "' AND elapsed >= " ++ toString e) ∧
    (killQuery ua e).data.count singleQuote =
      2 + ua.data.count singleQuote + (toString e).data.count singleQuote := by
  constructor
  · intro r hr
    unfold Cluster.killQueries at hr
    by_cases hcred : c.killQueryUserName = ""
    · rw [if_pos hcred] at hr
      simp at hr
    · rw [if_neg hcred] at hr
      exact killLoop_bodies (killQuery ua e) c.killQueryUserName
        c.killQueryUserPassword outcomes c.hosts 0 r hr
  · unfold killQuery
    rw [String.data_append, String.data_append, String.data_append]
    rw [List.count_append, List.count_append, List.count_append]
    have hpre : List.count singleQuote "KILL QUERY WHERE http_user_agent = '".data = 1 := by
      decide
    have hmid : List.count singleQuote "' AND elapsed >= ".data = 1 := by
      decide
    rw [hpre, hmid]
    omega

/-- C10 witness: instantiated at a tag that contains a single quote, showing
the quote structure of the statement change (3 quotes instead of 2). -/
theorem kill_statement_verbatim_tag_witness :
    ((∀ r ∈ (clusterKill.killQueries outcomesOk (singleQuote.toString ++ "tag") 30).2.1,
        r.body = "KILL QUERY WHERE http_user_agent = '" ++
          (singleQuote.toString ++ "tag") ++ "' AND elapsed >= " ++ toString (30 : Int)) ∧
      (killQuery (singleQuote.toString ++ "tag") 30).data.count singleQuote =
        2 + (singleQuote.toString ++ "tag").data.count singleQuote +
          (toString (30 : Int)).data.count singleQuote) ∧
    (killQuery (singleQuote.toString ++ "tag") 30).data.count singleQuote = 3 :=
  ⟨kill_statement_verbatim_tag clusterKill outcomesOk (singleQuote.toString ++ "tag") 30,
   by decide⟩
